import Mathlib

/-!
Verification of the webclaw schema-resolution pipeline.

This file gives a shallow embedding, in Lean 4, of the pure core of the
webclaw dashboard: column-type inference and smart-column selection
(`src/web/src/lib/response-introspection.ts`), the declarative UI.yaml to
FormSpec converter (`src/web/src/lib/ui-yaml-to-form.ts`), the manifest
driven auto form generator (`auto-form-spec.ts`), the form-spec resolver
(`resolveFormSpec` in `src/web/src/proxy.ts`), the confirmation-card
submission gating (`src/web/src/components/confirmation-card.tsx`) and the
SSE reconnect backoff (`events.ts`).

JavaScript strings are modelled through their character lists (`String.data`)
so that every definition evaluates inside the kernel; JavaScript `Array.sort`
(stable since ES2019) is modelled by a stable insertion sort (`sortStable`);
JavaScript objects used as string-keyed records are modelled by association
lists in insertion order (`Object.entries` order); `undefined` is modelled by
`Option.none`; JSON scalars are modelled by `JValue` with rational numbers.
-/

-- ── JavaScript string primitives over character lists ────────────────────────

/-- JS `String.prototype.startsWith`. -/
def jsStartsWith (p s : String) : Bool := p.data.isPrefixOf s.data

/-- JS `String.prototype.endsWith`. -/
def jsEndsWith (p s : String) : Bool := p.data.isSuffixOf s.data

/-- JS `s.replace(/_/g, "-")`: snake_case to kebab-case. -/
def snakeToKebab (s : String) : String := ⟨s.data.map (fun c => if c = '_' then '-' else c)⟩

/-- JS `String.prototype.toLowerCase` (ASCII, as used by the sources). -/
def jsToLower (s : String) : String := ⟨s.data.map Char.toLower⟩

/-- JS `w.charAt(0).toUpperCase() + w.slice(1)`. -/
def capitalizeWord (w : List Char) : List Char :=
  match w with
  | [] => []
  | c :: cs => c.toUpper :: cs

/-- JS `String.prototype.split` on a single character (keeps empty pieces). -/
def splitChar (sep : Char) : List Char → List (List Char)
  | [] => [[]]
  | c :: cs =>
    let rest := splitChar sep cs
    if c = sep then [] :: rest
    else
      match rest with
      | [] => [[c]]
      | w :: ws => (c :: w) :: ws

/-- JS `Array.prototype.join(sep)` for pieces of characters. -/
def joinChar (sep : Char) : List (List Char) → List Char
  | [] => []
  | [w] => w
  | w :: ws => w ++ sep :: joinChar sep ws

/-- Substring search over character lists. -/
def containsSub (needle : List Char) : List Char → Bool
  | [] => needle.isEmpty
  | c :: cs => needle.isPrefixOf (c :: cs) || containsSub needle cs

/-- JS `String.prototype.includes`. -/
def jsIncludes (needle hay : String) : Bool := containsSub needle.data hay.data

/-- JS `String.prototype.trim`. -/
def jsTrim (s : String) : String :=
  ⟨(((s.data.dropWhile Char.isWhitespace).reverse.dropWhile Char.isWhitespace).reverse)⟩

/-- JS `s || d` for strings: the empty string is falsy and falls back. -/
def jsOrStr (o : Option String) (d : String) : String :=
  match o with
  | some s => if s = "" then d else s
  | none => d

/-- JS `n || d` for numbers: `0` is falsy and falls back. -/
def jsOrNat (o : Option Nat) (d : Nat) : Nat :=
  match o with
  | some n => if n = 0 then d else n
  | none => d

-- ── JSON scalar values ───────────────────────────────────────────────────────

/-- A JSON scalar as delivered to the introspection and composition layers.
Numbers are modelled by rationals. -/
inductive JValue where
  | str (s : String)
  | num (q : Rat)
  | bool (b : Bool)
  | null
deriving DecidableEq, Repr

-- ── String-keyed records (JS objects, in insertion order) ────────────────────

/-- JS `obj[key]` on a string-keyed record modelled as an association list. -/
def lookupR {α : Type} (r : List (String × α)) (k : String) : Option α :=
  (r.find? (fun p => p.1 = k)).map (fun p => p.2)

-- ── Stable sort (model of ES2019 `Array.prototype.sort`) ─────────────────────

/-- Insert `x` into `l`, keeping `x` before the first element it need not
follow. When `le` ties, `x` (the earlier element) stays first: stability. -/
def insStable {α : Type} (le : α → α → Bool) (x : α) : List α → List α
  | [] => [x]
  | y :: ys => if le x y then x :: y :: ys else y :: insStable le x ys

/-- Stable insertion sort: the model of JavaScript stable `Array.sort`. -/
def sortStable {α : Type} (le : α → α → Bool) : List α → List α
  | [] => []
  | x :: xs => insStable le x (sortStable le xs)

/-- Le relation for a descending sort by a natural-number score. -/
def leDescBy {α : Type} (score : α → Nat) (a b : α) : Bool := score b ≤ score a

-- ════════════════════════════════════════════════════════════════════════════
-- Response introspection (src/web/src/lib/response-introspection.ts)
-- ════════════════════════════════════════════════════════════════════════════

namespace RI

/-- The inferred semantic column type (`IntrospectedColumn["type"]`). -/
inductive ColType where
  | text
  | number
  | currency
  | date
  | datetime
  | boolean
  | badge
  | id
deriving DecidableEq, BEq, Repr

/-- Embeds `IntrospectedColumn`. -/
structure IntrospectedColumn where
  key : String
  label : String
  type : ColType
  hidden : Bool
deriving DecidableEq, Repr

/-- Hex digit, case-insensitive, as matched by `UUID_RE` with the `i` flag. -/
def isHexChar (c : Char) : Bool :=
  c.isDigit || ('a' ≤ c && c ≤ 'f') || ('A' ≤ c && c ≤ 'F')

/-- Embeds `UUID_RE = /^[0-9a-f]{8}-[0-9a-f]{4}-[0-9a-f]{4}-[0-9a-f]{4}-[0-9a-f]{12}$/i`.
Since a hex digit is never a hyphen, the anchored regex matches exactly the
strings whose hyphen-split is five all-hex groups of sizes 8-4-4-4-12. -/
def uuidLike (l : List Char) : Bool :=
  match splitChar '-' l with
  | [a, b, c, d, e] =>
    a.length == 8 && b.length == 4 && c.length == 4 && d.length == 4 &&
    e.length == 12 && (a ++ b ++ c ++ d ++ e).all isHexChar
  | _ => false

/-- Embeds `ISO_DATE_RE = /^\d{4}-\d{2}-\d{2}$/` (anchored at both ends). -/
def isoDateLike (l : List Char) : Bool :=
  match l with
  | [y1, y2, y3, y4, h1, m1, m2, h2, d1, d2] =>
    y1.isDigit && y2.isDigit && y3.isDigit && y4.isDigit && h1 == '-' &&
    m1.isDigit && m2.isDigit && h2 == '-' && d1.isDigit && d2.isDigit
  | _ => false

/-- Embeds `ISO_DATETIME_RE = /^\d{4}-\d{2}-\d{2}[T ]\d{2}:\d{2}/` (prefix match). -/
def isoDatetimeLike (l : List Char) : Bool :=
  match l with
  | y1 :: y2 :: y3 :: y4 :: h1 :: m1 :: m2 :: h2 :: d1 :: d2 :: sep :: t1 :: t2 :: c :: u1 :: u2 :: _ =>
    y1.isDigit && y2.isDigit && y3.isDigit && y4.isDigit && h1 == '-' &&
    m1.isDigit && m2.isDigit && h2 == '-' && d1.isDigit && d2.isDigit &&
    (sep == 'T' || sep == ' ') && t1.isDigit && t2.isDigit && c == ':' &&
    u1.isDigit && u2.isDigit
  | _ => false

/-- Embeds `CURRENCY_RE = /^-?\d+\.\d{2}$/`. -/
def currencyLike (l : List Char) : Bool :=
  let body := match l with
    | '-' :: rest => rest
    | other => other
  let intPart := body.takeWhile Char.isDigit
  let rest := body.dropWhile Char.isDigit
  !intPart.isEmpty &&
    (match rest with
     | [p, a, b] => p == '.' && a.isDigit && b.isDigit
     | _ => false)

/-- Embeds `HIDDEN_COLUMNS`: columns always hidden in list views. -/
def HIDDEN_COLUMNS : List String :=
  ["id", "created_at", "updated_at", "created_by", "updated_by",
   "modified_at", "modified_by", "company_id", "docstatus"]

/-- Embeds `ID_SUFFIXES`. -/
def ID_SUFFIXES : List String := ["_id"]

/-- Embeds `STATUS_COLUMNS`. -/
def STATUS_COLUMNS : List String := ["status", "docstatus", "state", "stage"]

/-- Embeds `BADGE_COLUMNS`: enum-like column names rendered as badges. -/
def BADGE_COLUMNS : List String :=
  ["status", "state", "type", "resource_type", "category", "purpose",
   "priority", "severity", "stage"]

/-- Embeds `kebabToTitle` of response-introspection.ts: underscores and hyphens to
spaces, each word capitalized. -/
def kebabToTitle (key : String) : String :=
  let spaced := key.data.map (fun c => if c = '_' then ' ' else if c = '-' then ' ' else c)
  ⟨joinChar ' ' ((splitChar ' ' spaced).map capitalizeWord)⟩

/-- The pattern cascade of the `typeof value === "string"` branch of
`inferColumnType`; `none` models falling through past that branch. -/
def stringTypeOf (key : String) (s : String) : Option ColType :=
  if uuidLike s.data then some .id
  else if isoDatetimeLike s.data then some .datetime
  else if isoDateLike s.data then some .date
  else if currencyLike s.data then some .currency
  else if BADGE_COLUMNS.contains key && s.data.length < 30 && !s.data.contains ' ' then
    some .badge
  else none

/-- The trailing `(value === 0 || value === 1) && (is_/has_/enable_ name)`
check of `inferColumnType`. -/
def boolNamed01 (key : String) (v : JValue) : Bool :=
  (v == .num 0 || v == .num 1) &&
  (jsStartsWith "is_" key || jsStartsWith "has_" key || jsStartsWith "enable_" key)

/-- Embeds `inferColumnType`: mirrors the early-return cascade of the source. The
`typeof value === "number"` test returns first, so the `boolNamed01` check is
only reachable for values that are neither numbers, booleans, nor strings
matched by a pattern. -/
def inferColumnType (key : String) (v : JValue) : ColType :=
  match v with
  | .num _ => .number
  | .bool _ => .boolean
  | .str s =>
    match stringTypeOf key s with
    | some t => t
    | none => if boolNamed01 key v then .boolean else .text
  | .null => if boolNamed01 key v then .boolean else .text

/-- Embeds `shouldHideColumn`. -/
def shouldHideColumn (key : String) : Bool :=
  HIDDEN_COLUMNS.contains key || ID_SUFFIXES.any (fun sfx => jsEndsWith sfx key)

/-- One column of `_doIntrospect`: the type comes from `inferColumnType` and
the column is hidden when `shouldHideColumn` fires or the type is `id`. -/
def introspectColumn (key : String) (v : JValue) : IntrospectedColumn :=
  let colType := inferColumnType key v
  { key := key
    label := kebabToTitle key
    type := colType
    hidden := shouldHideColumn key || colType == .id }

/-- The additive priority score of `selectSmartColumns`. -/
def scoreOf (col : IntrospectedColumn) : Nat :=
  (if col.key == "name" || col.key == "title" then 100 else 0) +
  (if STATUS_COLUMNS.contains col.key then 90 else 0) +
  (if col.type == .badge then 70 else 0) +
  (if col.type == .currency then 60 else 0) +
  (if col.type == .number then 50 else 0) +
  (if col.type == .date then 40 else 0) +
  (if col.type == .boolean then 30 else 0) +
  (if col.type == .text then 20 else 0)

/-- The scored pairs of `selectSmartColumns` before sorting. -/
def scoredOf (columns : List IntrospectedColumn) : List (String × Nat) :=
  (columns.filter (fun c => !c.hidden)).map (fun col => (col.key, scoreOf col))

/-- Embeds `selectSmartColumns`: visible columns are scored, sorted descending by a
stable sort, and the top seven keys are kept. -/
def selectSmartColumns (columns : List IntrospectedColumn) : List String :=
  let visible := columns.filter (fun c => !c.hidden)
  if visible.isEmpty then []
  else ((sortStable (leDescBy Prod.snd) (scoredOf columns)).take 7).map Prod.fst

end RI

-- ════════════════════════════════════════════════════════════════════════════
-- Form spec types (form-spec.ts)
-- ════════════════════════════════════════════════════════════════════════════

/-- Embeds `FieldType` of form-spec.ts. -/
inductive FieldType where
  | text
  | number
  | currency
  | date
  | textarea
  | select
  | entityLookup
  | boolean
deriving DecidableEq, BEq, Repr

/-- A select option (`{label, value}`). -/
structure SelectOption where
  label : String
  value : String
deriving DecidableEq, Repr

/-- Embeds `FormFieldSpec` of form-spec.ts; optional components are `Option`. -/
structure FormFieldSpec where
  key : String
  label : String
  type : FieldType
  required : Option Bool := none
  default : Option JValue := none
  placeholder : Option String := none
  helpText : Option String := none
  description : Option String := none
  min : Option Rat := none
  max : Option Rat := none
  step : Option Rat := none
  options : Option (List SelectOption) := none
  entity_skill : Option String := none
  entity_action : Option String := none
  entity_value_field : Option String := none
  entity_display_field : Option String := none
deriving DecidableEq, Repr

/-- Embeds `FormSectionSpec["type"]`. -/
inductive SectionType where
  | fields
  | repeatable
deriving DecidableEq, Repr

/-- Embeds `FormSectionSpec`. -/
structure FormSectionSpec where
  label : String
  columns : Option Nat := none
  type : Option SectionType := none
  key : Option String := none
  min_rows : Option Nat := none
  max_rows : Option Nat := none
  fields : List FormFieldSpec
deriving DecidableEq, Repr

/-- Embeds `FormSpec`. -/
structure FormSpec where
  title : String
  description : Option String := none
  submit_action : String
  submit_label : Option String := none
  sections : List FormSectionSpec
deriving DecidableEq, Repr

-- ════════════════════════════════════════════════════════════════════════════
-- UI.yaml types (ui-yaml-types.ts; only the components the converter reads)
-- ════════════════════════════════════════════════════════════════════════════

namespace UIYaml

/-- Embeds `UIFieldType`. -/
inductive UIFieldType where
  | text
  | number
  | integer
  | currency
  | percent
  | quantity
  | date
  | datetime
  | textarea
  | select
  | boolean
  | link
  | status
  | json
deriving DecidableEq, BEq, Repr

/-- Embeds `FieldDef`; `min`/`max` are modelled as already-numeric (the converter
passes them through `Number(...)`), boolean view hints default to false as
JS `undefined` is falsy there. -/
structure FieldDef where
  type : UIFieldType
  label : String
  required : Option Bool := none
  read_only : Bool := false
  hidden : Bool := false
  default : Option JValue := none
  placeholder : Option String := none
  help_text : Option String := none
  min : Option Rat := none
  max : Option Rat := none
  precision : Option Nat := none
  options : Option (List SelectOption) := none
  link_entity : Option String := none
  link_display_field : Option String := none
  link_search_action : Option String := none
  param_name : Option String := none
  in_form_view : Bool := false
  form_group : Option String := none
  form_order : Option Nat := none
deriving DecidableEq, Repr

/-- Embeds `FormGroupDef`. -/
structure FormGroupDef where
  label : String
  order : Nat
  columns : Option Nat := none
  type : Option String := none
deriving DecidableEq, Repr

/-- One group of an explicit `views.form` definition. -/
structure FormViewGroup where
  label : String
  fields : Option (List String) := none
  columns : Option Nat := none
  type : Option String := none
  child_entity : Option String := none
deriving DecidableEq, Repr

/-- Embeds `FormViewDef`. -/
structure FormViewDef where
  groups : List FormViewGroup
deriving DecidableEq, Repr

/-- The `views` record of an entity (only `form` is read by the converter). -/
structure ViewsDef where
  form : Option FormViewDef := none
deriving DecidableEq, Repr

/-- Embeds `ChildEntityDef`. -/
structure ChildEntityDef where
  parent_entity : String
  parent_field : String := ""
  param_name : Option String := none
  fields : List (String × FieldDef)
deriving DecidableEq, Repr

/-- Embeds `EntityDef` (components consumed by the converter). -/
structure EntityDef where
  label : String
  label_plural : String
  table : String := ""
  fields : List (String × FieldDef)
  form_groups : Option (List (String × FormGroupDef)) := none
  views : Option ViewsDef := none
deriving DecidableEq, Repr

/-- Embeds `ActionMapEntry` (components consumed by the converter); `component` is
`none` for JSON `null`. -/
structure ActionMapEntry where
  component : Option String := none
  hidden : Option Bool := none
  entity : Option String := none
  mode : Option String := none
deriving DecidableEq, Repr

/-- Embeds `UIConfig` (components consumed by the converter). -/
structure UIConfig where
  skill : String
  skill_version : String := ""
  entities : List (String × EntityDef)
  child_entities : Option (List (String × ChildEntityDef)) := none
  action_map : List (String × ActionMapEntry)
deriving DecidableEq, Repr

-- ── ui-yaml-to-form.ts ───────────────────────────────────────────────────────

/-- Embeds `mapFieldType`: UI.yaml field types to FormSpec field types. -/
def mapFieldType (uiType : UIFieldType) : FieldType :=
  match uiType with
  | .link => .entityLookup
  | .currency => .currency
  | .number => .number
  | .integer => .number
  | .quantity => .number
  | .percent => .number
  | .date => .date
  | .datetime => .date
  | .textarea => .textarea
  | .select => .select
  | .boolean => .boolean
  | _ => .text

/-- Embeds `ACTION_SKILL_MAP`: list action to owning skill. -/
def ACTION_SKILL_MAP : List (String × String) :=
  [("list-companies", "erpclaw-setup"),
   ("list-currencies", "erpclaw-setup"),
   ("list-exchange-rates", "erpclaw-setup"),
   ("list-payment-terms", "erpclaw-setup"),
   ("list-uoms", "erpclaw-setup"),
   ("list-roles", "erpclaw-setup"),
   ("list-users", "erpclaw-setup"),
   ("list-accounts", "erpclaw-gl"),
   ("list-cost-centers", "erpclaw-gl"),
   ("list-fiscal-years", "erpclaw-gl"),
   ("list-budgets", "erpclaw-gl"),
   ("list-gl-entries", "erpclaw-gl"),
   ("list-items", "erpclaw-inventory"),
   ("list-warehouses", "erpclaw-inventory"),
   ("list-item-groups", "erpclaw-inventory"),
   ("list-batches", "erpclaw-inventory"),
   ("list-serial-numbers", "erpclaw-inventory"),
   ("list-stock-entries", "erpclaw-inventory"),
   ("list-customers", "erpclaw-selling"),
   ("list-quotations", "erpclaw-selling"),
   ("list-sales-orders", "erpclaw-selling"),
   ("list-delivery-notes", "erpclaw-selling"),
   ("list-sales-invoices", "erpclaw-selling"),
   ("list-sales-partners", "erpclaw-selling"),
   ("list-recurring-templates", "erpclaw-selling"),
   ("list-suppliers", "erpclaw-buying"),
   ("list-rfqs", "erpclaw-buying"),
   ("list-supplier-quotations", "erpclaw-buying"),
   ("list-purchase-orders", "erpclaw-buying"),
   ("list-purchase-receipts", "erpclaw-buying"),
   ("list-purchase-invoices", "erpclaw-buying"),
   ("list-material-requests", "erpclaw-buying"),
   ("list-tax-templates", "erpclaw-tax"),
   ("list-employees", "erpclaw-hr"),
   ("list-projects", "erpclaw-projects"),
   ("list-assets", "erpclaw-assets")]

/-- Embeds `resolveEntitySkill`. -/
def resolveEntitySkill (searchAction : String) : Option String :=
  lookupR ACTION_SKILL_MAP searchAction

/-- Embeds `ENTITY_ACTION_OVERRIDES`: irregular pluralization overrides, consulted
before the convention-based pluralizer. -/
def ENTITY_ACTION_OVERRIDES : List (String × String) :=
  [("request_for_quotation", "list-rfqs"),
   ("delivery_note", "list-delivery-notes"),
   ("stock_entry", "list-stock-entries"),
   ("gl_entry", "list-gl-entries"),
   ("serial_number", "list-serial-numbers")]

/-- The convention-based pluralizer inside `inferSearchAction`: a trailing
`s` is kept as is, a trailing `y` becomes `ies`, otherwise `s` is appended. -/
def pluralizeKebab (kebab : String) : String :=
  if jsEndsWith "s" kebab then kebab
  else if jsEndsWith "y" kebab then String.mk kebab.data.dropLast ++ "ies"
  else kebab ++ "s"

/-- Embeds `inferSearchAction`: overrides first, then `list-` + pluralized kebab
name. An absent or empty entity name yields no action. -/
def inferSearchAction (linkEntity : Option String) : Option String :=
  match linkEntity with
  | none => none
  | some e =>
    if e = "" then none
    else
      match lookupR ENTITY_ACTION_OVERRIDES e with
      | some a => some a
      | none => some ("list-" ++ pluralizeKebab (snakeToKebab e))

/-- Embeds `fieldDefToFormField`. -/
def fieldDefToFormField (key : String) (field : FieldDef) (currentSkill : String) :
    FormFieldSpec :=
  let spec : FormFieldSpec :=
    { key := jsOrStr field.param_name (snakeToKebab key)
      label := field.label
      type := mapFieldType field.type
      required := field.required
      placeholder := field.placeholder
      helpText := field.help_text
      default := field.default
      min := field.min
      max := field.max
      step := field.precision.map (fun p => (1 : Rat) / 10 ^ p)
      options := field.options }
  if field.type == .link then
    let searchAction :=
      match field.link_search_action with
      | some s => if s = "" then inferSearchAction field.link_entity else some s
      | none => inferSearchAction field.link_entity
    match searchAction with
    | some sa =>
      { spec with
          entity_action := some sa
          entity_value_field := some "id"
          entity_display_field := some (jsOrStr field.link_display_field "name")
          entity_skill :=
            match resolveEntitySkill sa with
            | some owner => if owner ≠ currentSkill then some owner else none
            | none => none }
    | none => spec
  else spec

/-- The `form_group || "_default"` grouping key of a field. -/
def groupOf (fd : FieldDef) : String := jsOrStr fd.form_group "_default"

/-- The `form_order || 99` ordering key of a field. -/
def orderOf (fd : FieldDef) : Nat := jsOrNat fd.form_order 99

/-- The eligible form fields of an entity: `in_form_view` and neither
`read_only` nor `hidden` (the two `continue` filters of `buildFormSections`). -/
def eligibleEntries (entity : EntityDef) : List (String × FieldDef) :=
  entity.fields.filter (fun p => p.2.in_form_view && !p.2.read_only && !p.2.hidden)

/-- Embeds `groupedFields[g]` of `buildFormSections`. -/
def groupedFieldsFor (entity : EntityDef) (g : String) : List (String × FieldDef) :=
  (eligibleEntries entity).filter (fun p => groupOf p.2 = g)

/-- The repeatable-row field specs of a matched child entity. -/
def childFieldSpecs (childDef : ChildEntityDef) (skill : String) : List FormFieldSpec :=
  (childDef.fields.filter (fun p => !p.2.read_only && !p.2.hidden)).map
    (fun p => fieldDefToFormField p.1 p.2 skill)

/-- Embeds `findEntityKey` (`entity.table || ""` is the identity on strings). -/
def findEntityKey (entity : EntityDef) : String := entity.table

/-- One iteration of the `sortedGroups` loop of `buildFormSections`: at most
one section per declared form group. -/
def sectionForGroup (entity : EntityDef) (skill : String)
    (childEntities : Option (List (String × ChildEntityDef)))
    (resolvedEntityKey : String) (gk : String) (gd : FormGroupDef) :
    Option FormSectionSpec :=
  if gd.type = some "child_table" then
    match (childEntities.getD []).find? (fun p => p.2.parent_entity = resolvedEntityKey) with
    | some mc =>
      some { label := gd.label
             type := some .repeatable
             key := some (jsOrStr mc.2.param_name "items")
             min_rows := some 1
             fields := childFieldSpecs mc.2 skill }
    | none => none
  else
    let groupFields := groupedFieldsFor entity gk
    let autoDetect : Option FormSectionSpec :=
      if !groupFields.isEmpty && childEntities.isSome then
        match groupFields.find? (fun p => p.2.type == UIFieldType.json) with
        | some jsonField =>
          match (childEntities.getD []).find? (fun p => p.2.parent_entity = resolvedEntityKey) with
          | some mc =>
            some { label := gd.label
                   type := some .repeatable
                   key := some (jsOrStr mc.2.param_name jsonField.1)
                   min_rows := some 1
                   fields := childFieldSpecs mc.2 skill }
          | none => none
        | none => none
      else none
    match autoDetect with
    | some sec => some sec
    | none =>
      if groupFields.isEmpty then none
      else
        some { label := gd.label
               columns := some (jsOrNat gd.columns 1)
               fields := (sortStable (fun a b => orderOf a.2 ≤ orderOf b.2) groupFields).map
                 (fun p => fieldDefToFormField p.1 p.2 skill) }

/-- Embeds `buildFormSections`. -/
def buildFormSections (entity : EntityDef) (skill : String)
    (childEntities : Option (List (String × ChildEntityDef)))
    (entityKey : Option String) : List FormSectionSpec :=
  let formGroups := entity.form_groups.getD []
  let sortedGroups := sortStable (fun a b => a.2.order ≤ b.2.order) formGroups
  let resolvedEntityKey := jsOrStr entityKey (findEntityKey entity)
  let groupSections := sortedGroups.filterMap
    (fun p => sectionForGroup entity skill childEntities resolvedEntityKey p.1 p.2)
  let defaultFields := groupedFieldsFor entity "_default"
  groupSections ++
    (if defaultFields.isEmpty then []
     else
       [{ label := "Details"
          columns := some 2
          fields := (sortStable (fun a b => orderOf a.2 ≤ orderOf b.2) defaultFields).map
            (fun p => fieldDefToFormField p.1 p.2 skill) }])

/-- One group of `buildFormSectionsFromFormView`. -/
def sectionForFormViewGroup (group : FormViewGroup) (entity : EntityDef)
    (childEntities : List (String × ChildEntityDef)) (skill : String) :
    Option FormSectionSpec :=
  let childEntityName : Option String :=
    match group.child_entity with
    | some s => if s = "" then none else some s
    | none => none
  if group.type = some "child_table" && childEntityName.isSome then
    match lookupR childEntities (childEntityName.getD "") with
    | some childDef =>
      some { label := group.label
             type := some .repeatable
             key := some (jsOrStr childDef.param_name "items")
             min_rows := some 1
             fields := childFieldSpecs childDef skill }
    | none => none
  else
    match group.fields with
    | some fieldKeys =>
      let formFields := fieldKeys.filterMap (fun fieldKey =>
        match lookupR entity.fields fieldKey with
        | some fieldDef =>
          if fieldDef.read_only || fieldDef.hidden then none
          else some (fieldDefToFormField fieldKey fieldDef skill)
        | none => none)
      if formFields.isEmpty then none
      else
        some { label := group.label
               columns := some (jsOrNat group.columns 1)
               fields := formFields }
    | none => none

/-- Embeds `buildFormSectionsFromFormView`. -/
def buildFormSectionsFromFormView (formView : FormViewDef) (entity : EntityDef)
    (childEntities : List (String × ChildEntityDef)) (skill : String) :
    List FormSectionSpec :=
  formView.groups.filterMap
    (fun group => sectionForFormViewGroup group entity childEntities skill)

/-- Embeds `generateFormSpec`. -/
def generateFormSpec (config : UIConfig) (action : String) : Option FormSpec :=
  match lookupR config.action_map action with
  | none => none
  | some actionEntry =>
    if actionEntry.component ≠ some "FormView" then none
    else
      match actionEntry.entity with
      | none => none
      | some entityName =>
        if entityName = "" then none
        else
          match lookupR config.entities entityName with
          | none => none
          | some entity =>
            let sections :=
              match entity.views.bind (fun v => v.form) with
              | some fv =>
                buildFormSectionsFromFormView fv entity (config.child_entities.getD []) config.skill
              | none =>
                buildFormSections entity config.skill config.child_entities (some entityName)
            if sections.isEmpty then none
            else
              let isCreate := actionEntry.mode = some "create"
              some { title := (if isCreate then "New" else "Edit") ++ " " ++ entity.label
                     description :=
                       if entity.label_plural ≠ "" then
                         some ((if isCreate then "Create" else "Update") ++ " a " ++
                           jsToLower entity.label)
                       else none
                     submit_action := action
                     submit_label := some ((if isCreate then "Create " else "Update ") ++ entity.label)
                     sections := sections }

end UIYaml

-- ════════════════════════════════════════════════════════════════════════════
-- Manifest param schema and child-table schema (param-schema.ts,
-- child-table-schema.ts)
-- ════════════════════════════════════════════════════════════════════════════

namespace AutoForm

/-- Embeds `ParamField` of param-schema.ts; the manifest type is kept as a string
because the generator resolves it through a string-keyed table with a
fallback. -/
structure ParamField where
  name : String
  label : String
  type : String
  required : Bool
  default : Option String := none
  step : Option Rat := none
  description : Option String := none
  options : Option (List SelectOption) := none
  lookup_action : Option String := none
  lookup_skill : Option String := none
deriving DecidableEq, Repr

/-- Embeds `ActionParamSchema`. -/
structure ActionParamSchema where
  action_type : String
  entity_group : Option String := none
  description : Option String := none
  required : List ParamField
  optional : List ParamField
deriving DecidableEq, Repr

/-- Embeds `EntityGroup`. -/
structure EntityGroup where
  name : String
  actions : List String
deriving DecidableEq, Repr

/-- Embeds `ParamSchema`. -/
structure ParamSchema where
  skill : String := ""
  schema_source : String := ""
  actions : List (String × ActionParamSchema)
  entity_groups : List EntityGroup := []
deriving DecidableEq, Repr

/-- Embeds `ChildTableField` of child-table-schema.ts. -/
structure ChildTableField where
  key : String
  label : String
  type : FieldType
  required : Option Bool := none
  default : Option String := none
  min : Option Rat := none
  step : Option Rat := none
  entity_action : Option String := none
  entity_skill : Option String := none
  entity_value_field : Option String := none
  entity_display_field : Option String := none
deriving DecidableEq, Repr

/-- Embeds `ChildTableInfo`. -/
structure ChildTableInfo where
  table : String := ""
  param_name : String
  fields : List ChildTableField
deriving DecidableEq, Repr

/-- Embeds `ChildTableSchema` (child tables keyed by parent entity). -/
structure ChildTableSchema where
  skill : String := ""
  child_tables : List (String × List ChildTableInfo)
deriving DecidableEq, Repr

-- ── auto-form-spec.ts ────────────────────────────────────────────────────────

/-- Embeds `ACTION_PREFIXES` in object insertion order. -/
def ACTION_PREFIXES : List (String × String) :=
  [("add-", "New "),
   ("create-", "New "),
   ("update-", "Update "),
   ("submit-", "Submit "),
   ("cancel-", "Cancel "),
   ("delete-", "Delete "),
   ("confirm-", "Confirm "),
   ("complete-", "Complete "),
   ("approve-", "Approve "),
   ("reject-", "Reject "),
   ("check-", "Check "),
   ("get-", ""),
   ("list-", ""),
   ("seed-", "Setup "),
   ("setup-", "Setup "),
   ("generate-", "Generate "),
   ("compute-", "Compute "),
   ("validate-", "Validate ")]

/-- Embeds `kebabToTitle` of auto-form-spec.ts. -/
def kebabToTitle (kebab : String) : String :=
  ⟨joinChar ' ' ((splitChar '-' kebab.data).map capitalizeWord)⟩

/-- Embeds `deriveTitle`. -/
def deriveTitle (action : String) : String :=
  match ACTION_PREFIXES.find? (fun p => jsStartsWith p.1 action) with
  | some p => jsTrim (p.2 ++ kebabToTitle ⟨action.data.drop p.1.length⟩)
  | none => kebabToTitle action

/-- Embeds `deriveSubmitLabel`. -/
def deriveSubmitLabel (action : String) : String :=
  if jsStartsWith "add-" action || jsStartsWith "create-" action then "Create"
  else if jsStartsWith "update-" action then "Update"
  else if jsStartsWith "submit-" action then "Submit"
  else if jsStartsWith "cancel-" action then "Cancel"
  else if jsStartsWith "delete-" action then "Delete"
  else if jsStartsWith "confirm-" action then "Confirm"
  else if jsStartsWith "complete-" action then "Complete"
  else if jsStartsWith "approve-" action then "Approve"
  else if jsStartsWith "reject-" action then "Reject"
  else if jsStartsWith "check-" action then "Check"
  else if jsStartsWith "generate-" action then "Generate"
  else if jsStartsWith "compute-" action then "Compute"
  else if jsStartsWith "seed-" action || jsStartsWith "setup-" action then "Run Setup"
  else "Execute"

/-- JS global replace of each hyphen by an underscore. -/
def kebabToSnake (s : String) : String :=
  ⟨s.data.map (fun c => if c = '-' then '_' else c)⟩

/-- Embeds `deriveEntity`. -/
def deriveEntity (action : String) : String :=
  match ACTION_PREFIXES.find? (fun p => jsStartsWith p.1 action) with
  | some p => kebabToSnake ⟨action.data.drop p.1.length⟩
  | none => kebabToSnake action

/-- Embeds `PARAM_TYPE_TO_FIELD_TYPE`. -/
def PARAM_TYPE_TO_FIELD_TYPE : List (String × FieldType) :=
  [("text", .text),
   ("number", .number),
   ("currency", .currency),
   ("date", .date),
   ("time", .text),
   ("textarea", .textarea),
   ("select", .select),
   ("entity-lookup", .entityLookup),
   ("boolean", .boolean),
   ("email", .text),
   ("phone", .text)]

/-- Embeds `AUTO_HIDDEN_FIELDS`: fields the gateway injects (not user-facing). -/
def AUTO_HIDDEN_FIELDS : List String := ["company-id"]

/-- JS truthiness of an optional string (`undefined` and `""` are falsy). -/
def jsStrOpt (o : Option String) : Option String :=
  match o with
  | some s => if s = "" then none else some s
  | none => none

/-- Embeds `paramToField`. -/
def paramToField (param : ParamField) (skill : String) : FormFieldSpec :=
  let fieldType := (lookupR PARAM_TYPE_TO_FIELD_TYPE param.type).getD .text
  let spec : FormFieldSpec :=
    { key := param.name
      label := param.label
      type := fieldType
      required := some param.required
      description := param.description
      default := param.default.map JValue.str }
  let spec :=
    if fieldType == .date then { spec with placeholder := some "YYYY-MM-DD" }
    else if param.type == "time" then { spec with placeholder := some "HH:MM" }
    else if param.type == "email" then { spec with placeholder := some "email@example.com" }
    else if param.type == "phone" then { spec with placeholder := some "+1 (555) 000-0000" }
    else if fieldType == .entityLookup then
      { spec with placeholder := some ("Search " ++ jsToLower param.label ++ "...") }
    else if fieldType == .currency then
      { spec with placeholder := some "0.00", min := some 0, step := some (1 / 100 : Rat) }
    else if fieldType == .number then { spec with step := some (param.step.getD 1) }
    else spec
  let spec :=
    match param.options with
    | some os => if os.length > 0 then { spec with options := some os } else spec
    | none => spec
  if fieldType == .entityLookup then
    match jsStrOpt param.lookup_action with
    | some la =>
      let entityName :=
        if jsEndsWith "-id" param.name then String.mk (param.name.data.dropLast.dropLast.dropLast)
        else param.name
      let displayField :=
        if jsIncludes "account" entityName then "account_name"
        else if jsIncludes "employee" entityName then "employee_name"
        else "name"
      let spec :=
        { spec with
            entity_action := some la
            entity_value_field := some "id"
            entity_display_field := some displayField }
      match jsStrOpt param.lookup_skill with
      | some ls => if ls ≠ skill then { spec with entity_skill := some ls } else spec
      | none => spec
    | none => spec
  else spec

/-- The repeatable-row section built for a JSON param with a matching child
table. -/
def jsonRepeatableSection (jsonParam : ParamField) (mc : ChildTableInfo) :
    FormSectionSpec :=
  { label := jsonParam.label
    type := some .repeatable
    key := some jsonParam.name
    min_rows := some 1
    fields := mc.fields.map (fun f =>
      { key := f.key
        label := f.label
        type := f.type
        required := f.required
        default := f.default.map JValue.str
        step := f.step
        min := f.min
        placeholder :=
          if f.type == .entityLookup then some ("Search " ++ jsToLower f.label ++ "...")
          else if f.type == .currency then some "0.00"
          else none
        entity_action := f.entity_action
        entity_skill := f.entity_skill
        entity_value_field := f.entity_value_field
        entity_display_field := f.entity_display_field }) }

/-- The raw-JSON textarea fallback section for a JSON param. -/
def jsonTextareaSection (jsonParam : ParamField) : FormSectionSpec :=
  { label := jsonParam.label
    columns := some 1
    fields :=
      [{ key := jsonParam.name
         label := jsonParam.label
         type := .textarea
         required := some jsonParam.required
         placeholder := some ("Enter " ++ jsToLower jsonParam.label ++ " as JSON array...")
         helpText := some "JSON format: [\x7b...\x7d, \x7b...\x7d]" }] }

/-- Embeds `generateAutoFormSpec`. -/
def generateAutoFormSpec (skill action : String) (paramSchema : ActionParamSchema)
    (childTableSchema : Option ChildTableSchema) : Option FormSpec :=
  let formActions := ["create", "update", "setup", "action", "status-transition", "utility"]
  if !formActions.contains paramSchema.action_type then none
  else
    let allParams := paramSchema.required ++ paramSchema.optional
    if allParams.isEmpty then none
    else
      let regularRequired := paramSchema.required.filter
        (fun p => p.type != "json" && !AUTO_HIDDEN_FIELDS.contains p.name)
      let regularOptional := paramSchema.optional.filter
        (fun p => p.type != "json" && !AUTO_HIDDEN_FIELDS.contains p.name)
      let jsonFields := allParams.filter (fun p => p.type == "json")
      let hiddenRequired := paramSchema.required.filter
        (fun p => AUTO_HIDDEN_FIELDS.contains p.name)
      let requiredSections : List FormSectionSpec :=
        if !regularRequired.isEmpty then
          [{ label := jsOrStr paramSchema.entity_group (deriveTitle action)
             columns := some (if regularRequired.length > 1 then 2 else 1)
             fields := regularRequired.map (fun p => paramToField p skill) }]
        else []
      let optionalSections : List FormSectionSpec :=
        if !regularOptional.isEmpty then
          [{ label := "Additional Details"
             columns := some (if regularOptional.length > 1 then 2 else 1)
             fields := regularOptional.map (fun p => paramToField p skill) }]
        else []
      let entity := deriveEntity action
      let childTables := childTableSchema.bind (fun cts => lookupR cts.child_tables entity)
      let jsonSections : List FormSectionSpec := jsonFields.map (fun jsonParam =>
        match childTables.bind (fun l => l.find? (fun ct => ct.param_name == jsonParam.name)) with
        | some mc =>
          if !mc.fields.isEmpty then jsonRepeatableSection jsonParam mc
          else jsonTextareaSection jsonParam
        | none => jsonTextareaSection jsonParam)
      let sections := requiredSections ++ optionalSections ++ jsonSections
      let sections :=
        if !hiddenRequired.isEmpty && !sections.isEmpty then
          match sections with
          | [] => []
          | s :: rest =>
            { s with fields := (hiddenRequired.map (fun hp => paramToField hp skill)).reverse ++ s.fields } :: rest
        else sections
      some { title := deriveTitle action
             submit_action := action
             submit_label := some (deriveSubmitLabel action)
             sections := sections }

end AutoForm

-- ════════════════════════════════════════════════════════════════════════════
-- resolveFormSpec (src/web/src/proxy.ts): UI.yaml tier, pending guard,
-- manifest tier
-- ════════════════════════════════════════════════════════════════════════════

namespace Proxy

/-- Embeds `resolveFormSpec` of the skill page: tier L2 is the UI.yaml converter;
while the UI.yaml source is still loading the resolver returns `none`
without consulting tier L1; tier L1 is the manifest auto-generator. -/
def resolveFormSpec (uiConfig : Option UIYaml.UIConfig) (uiConfigLoading : Bool)
    (paramSchema : Option AutoForm.ParamSchema)
    (childTableSchema : Option AutoForm.ChildTableSchema)
    (skill action : String) : Option FormSpec :=
  match uiConfig.bind (fun cfg => UIYaml.generateFormSpec cfg action) with
  | some spec => some spec
  | none =>
    if uiConfigLoading then none
    else
      match paramSchema.bind (fun ps => lookupR ps.actions action) with
      | some aps => AutoForm.generateAutoFormSpec skill action aps childTableSchema
      | none => none

/-- The required field keys of a form spec (fields whose `required` flag is
set, JS truthiness). -/
def requiredKeys (spec : FormSpec) : List String :=
  (spec.sections.map (fun sec =>
    (sec.fields.filter (fun f => f.required.getD false)).map (fun f => f.key))).flatten

end Proxy

-- ════════════════════════════════════════════════════════════════════════════
-- Confirmation card (confirmation-card.tsx): submission gating and the
-- confidence split
-- ════════════════════════════════════════════════════════════════════════════

namespace Confirm

/-- Embeds `ResolvedField` of composition-types. -/
structure ResolvedField where
  field : String
  value : JValue
  confidence : Rat
  source : String
  source_detail : String := ""
deriving DecidableEq, Repr

/-- Embeds `CompositionResult`. -/
structure CompositionResult where
  action : String
  resolved_fields : List ResolvedField
  unresolved_fields : List String
  summary : String := ""
  show_full_form : Bool := false
deriving DecidableEq, Repr

/-- Embeds `unresolvedValues[f] || ""`. -/
def unresolvedValueOf (unresolvedValues : List (String × String)) (f : String) : String :=
  match lookupR unresolvedValues f with
  | some s => if s = "" then "" else s
  | none => ""

/-- Embeds `hasUnresolved`. -/
def hasUnresolved (comp : CompositionResult) : Bool :=
  decide (comp.unresolved_fields.length > 0)

/-- Embeds `allUnresolvedFilled`: every unresolved field has a trim-nonempty entry. -/
def allUnresolvedFilled (comp : CompositionResult)
    (unresolvedValues : List (String × String)) : Bool :=
  comp.unresolved_fields.all (fun f => jsTrim (unresolvedValueOf unresolvedValues f) != "")

/-- Embeds `canSubmit`. -/
def canSubmit (comp : CompositionResult)
    (unresolvedValues : List (String × String)) : Bool :=
  !hasUnresolved comp || allUnresolvedFilled comp unresolvedValues

/-- Embeds `resolvedOverrides[f.field] ?? f.value`. -/
def overrideOrValue (overrides : List (String × JValue)) (f : ResolvedField) : JValue :=
  match lookupR overrides f.field with
  | some v => v
  | none => f.value

/-- The parameter set built by `handleSubmit`: resolved fields with overrides
applied, then the user-entered unresolved values. -/
def submittedParams (comp : CompositionResult) (overrides : List (String × JValue))
    (unresolvedValues : List (String × String)) : List (String × JValue) :=
  comp.resolved_fields.map (fun f => (f.field, overrideOrValue overrides f)) ++
  comp.unresolved_fields.map (fun f => (f, JValue.str (unresolvedValueOf unresolvedValues f)))

/-- Embeds `handleSubmit`: returns the submitted parameter set, or `none` when the
local gate blocks the submission before any network call. -/
def handleSubmit (comp : CompositionResult) (overrides : List (String × JValue))
    (unresolvedValues : List (String × String)) : Option (List (String × JValue)) :=
  if !canSubmit comp unresolvedValues then none
  else some (submittedParams comp overrides unresolvedValues)

/-- The high-confidence display band (`confidence >= 0.8`). -/
def highConfidence (comp : CompositionResult) : List ResolvedField :=
  comp.resolved_fields.filter (fun f => decide ((4 / 5 : Rat) ≤ f.confidence))

/-- The low-confidence display band (`confidence < 0.8`). -/
def lowConfidence (comp : CompositionResult) : List ResolvedField :=
  comp.resolved_fields.filter (fun f => decide (f.confidence < (4 / 5 : Rat)))

end Confirm

-- ════════════════════════════════════════════════════════════════════════════
-- Live update channel reconnect backoff (events.ts)
-- ════════════════════════════════════════════════════════════════════════════

namespace Events

/-- Embeds `BASE_BACKOFF` (1s). -/
def BASE_BACKOFF : Nat := 1000

/-- Embeds `MAX_BACKOFF` (30s). -/
def MAX_BACKOFF : Nat := 30000

/-- Embeds `Math.min(BASE_BACKOFF * 2 ** retryRef.current, MAX_BACKOFF)`. -/
def backoffDelay (retry : Nat) : Nat :=
  min (BASE_BACKOFF * 2 ^ retry) MAX_BACKOFF

/-- One transport event of the channel: an `onerror` or a successful
`onopen`. -/
inductive ChannelEvent where
  | fail
  | openOk
deriving DecidableEq, Repr

/-- The retry counter transition: `retryRef.current++` on error,
`retryRef.current = 0` on open. -/
def stepRetry (retry : Nat) : ChannelEvent → Nat
  | .fail => retry + 1
  | .openOk => 0

/-- The reconnect delays scheduled along a sequence of transport events,
starting from a given retry counter. -/
def failureDelays (retry : Nat) : List ChannelEvent → List Nat
  | [] => []
  | .fail :: es => backoffDelay retry :: failureDelays (retry + 1) es
  | .openOk :: es => failureDelays 0 es

end Events

-- ════════════════════════════════════════════════════════════════════════════
-- Field provenance predicate and the pool of declared field definitions
-- ════════════════════════════════════════════════════════════════════════════

namespace UIYaml

/-- A rendered form field originating in a declared field definition of the
entity or of one of the child entities, with that definition neither
read-only nor hidden. -/
def FieldFromEntityOrChild (entity : EntityDef)
    (childEntities : List (String × ChildEntityDef)) (skill : String)
    (f : FormFieldSpec) : Prop :=
  ∃ p : String × FieldDef,
    (p ∈ entity.fields ∨ ∃ ce ∈ childEntities, p ∈ ce.2.fields) ∧
    p.2.read_only = false ∧ p.2.hidden = false ∧
    f = fieldDefToFormField p.1 p.2 skill

/-- Every field definition a UI config declares, across entities and child
entities. -/
def fieldDefsOf (cfg : UIConfig) : List (String × FieldDef) :=
  (cfg.entities.map (fun p => p.2.fields)).flatten ++
  ((cfg.child_entities.getD []).map (fun p => p.2.fields)).flatten

end UIYaml

-- ════════════════════════════════════════════════════════════════════════════
-- The claim reading of the lookup-action pluralizer (for comparison with the
-- source implementation)
-- ════════════════════════════════════════════════════════════════════════════

/-- The pluralize-first algorithm stated by claim C4, written from the claim
words (not from the source): the entity name is pluralized with the rules
trailing y to ies, trailing s to es, otherwise append s; the override table
would only be a fallback afterwards, and this pluralizer always succeeds, so
that fallback is never consulted. -/
def claimedInferSearchAction (entity : String) : String :=
  let kebab := snakeToKebab entity
  let plural :=
    if jsEndsWith "y" kebab then String.mk kebab.data.dropLast ++ "ies"
    else if jsEndsWith "s" kebab then kebab ++ "es"
    else kebab ++ "s"
  "list-" ++ plural

-- ════════════════════════════════════════════════════════════════════════════
-- Concrete instances used by counterexamples and witnesses
-- ════════════════════════════════════════════════════════════════════════════

/-- A single required, visible text field named `a`. -/
def xFieldDef : UIYaml.FieldDef :=
  { type := .text, label := "A", required := some true, in_form_view := true }

/-- A declarative config for skill `sk` with a form action `add-x` over an
entity `x` with the single field `a`. -/
def xUIConfig : UIYaml.UIConfig :=
  { skill := "sk"
    entities := [("x", { label := "X", label_plural := "Xs", fields := [("a", xFieldDef)] })]
    action_map := [("add-x", { component := some "FormView", entity := some "x", mode := some "create" })] }

/-- Manifest parameter metadata for the same action `add-x`, declaring one
required parameter `b`. -/
def xActionParams : AutoForm.ActionParamSchema :=
  { action_type := "create"
    required := [{ name := "b", label := "B", type := "text", required := true }]
    optional := [] }

/-- The manifest schema holding `xActionParams` under `add-x`. -/
def xParamSchema : AutoForm.ParamSchema :=
  { actions := [("add-x", xActionParams)] }

/-- The section the converter produces for `xUIConfig` at `add-x`. -/
def xSection : FormSectionSpec :=
  { label := "Details"
    columns := some 2
    fields := [UIYaml.fieldDefToFormField "a" xFieldDef "sk"] }

/-- The form spec the converter produces for `xUIConfig` at `add-x`. -/
def xFormSpec : FormSpec :=
  { title := "New X"
    description := some "Create a x"
    submit_action := "add-x"
    submit_label := some "Create X"
    sections := [xSection] }

/-- A required manifest parameter named `company-id` (auto-hidden by name). -/
def companyIdParam : AutoForm.ParamField :=
  { name := "company-id", label := "Company", type := "text", required := true }

/-- The same parameter under a name that is not auto-hidden. -/
def branchIdParam : AutoForm.ParamField :=
  { name := "branch-id", label := "Company", type := "text", required := true }

/-- An ordinary required manifest parameter. -/
def customerNameParam : AutoForm.ParamField :=
  { name := "customer-name", label := "Customer Name", type := "text", required := true }

/-- Manifest metadata whose required list contains the auto-hidden
`company-id` parameter. -/
def companyIdSchema : AutoForm.ActionParamSchema :=
  { action_type := "create", required := [companyIdParam, customerNameParam], optional := [] }

/-- The same metadata with `company-id` renamed to the non-hidden
`branch-id`. -/
def branchIdSchema : AutoForm.ActionParamSchema :=
  { action_type := "create", required := [branchIdParam, customerNameParam], optional := [] }

/-- The first field of the first section of an optional form spec. -/
def firstFieldOf (o : Option FormSpec) : Option FormFieldSpec :=
  (o.bind (fun s => s.sections.head?)).bind (fun sec => sec.fields.head?)

/-- A high-confidence resolved field. -/
def amountField : Confirm.ResolvedField :=
  { field := "amount", value := .num 5, confidence := 9 / 10, source := "history" }

/-- A resolved field at exactly the 0.8 confidence boundary. -/
def boundaryField : Confirm.ResolvedField :=
  { field := "customer", value := .str "acme", confidence := 4 / 5, source := "session" }

/-- A low-confidence resolved field. -/
def memoField : Confirm.ResolvedField :=
  { field := "memo", value := .str "x", confidence := 1 / 2, source := "inference" }

/-- A composition with three resolved fields and one unresolved field. -/
def sampleComposition : Confirm.CompositionResult :=
  { action := "add-invoice"
    resolved_fields := [amountField, boundaryField, memoField]
    unresolved_fields := ["due_date"] }

/-- User-entered values for the unresolved fields of `sampleComposition`. -/
def sampleUnresolvedValues : List (String × String) := [("due_date", "2024-04-01")]

/-- A user override for one resolved field of `sampleComposition`. -/
def sampleOverrides : List (String × JValue) := [("memo", .str "edited")]

-- ════════════════════════════════════════════════════════════════════════════
-- Theorems
-- ════════════════════════════════════════════════════════════════════════════

-- ── Stable sort lemmas ──────────────────────────────────────────────────────

theorem length_insStable {α : Type} (le : α → α → Bool) (x : α) (l : List α) :
    (insStable le x l).length = l.length + 1 := by
  induction l with
  | nil => rfl
  | cons y ys ih =>
    simp only [insStable]
    split
    · simp
    · simp [ih]

theorem length_sortStable {α : Type} (le : α → α → Bool) (l : List α) :
    (sortStable le l).length = l.length := by
  induction l with
  | nil => rfl
  | cons x xs ih => simp [sortStable, length_insStable, ih]

theorem mem_insStable {α : Type} (le : α → α → Bool) (x a : α) (l : List α) :
    a ∈ insStable le x l ↔ a = x ∨ a ∈ l := by
  induction l with
  | nil => simp [insStable]
  | cons y ys ih =>
    simp only [insStable]
    split
    · simp [List.mem_cons]
    · simp only [List.mem_cons, ih]
      tauto

theorem mem_sortStable {α : Type} (le : α → α → Bool) (a : α) (l : List α) :
    a ∈ sortStable le l ↔ a ∈ l := by
  induction l with
  | nil => simp [sortStable]
  | cons x xs ih => simp [sortStable, mem_insStable, ih]

theorem pairwise_insStable {α : Type} (le : α → α → Bool)
    (htrans : ∀ a b c, le a b = true → le b c = true → le a c = true)
    (htot : ∀ a b, le a b = true ∨ le b a = true)
    (x : α) (l : List α) (hl : l.Pairwise (fun a b => le a b = true)) :
    (insStable le x l).Pairwise (fun a b => le a b = true) := by
  induction l with
  | nil => simp [insStable]
  | cons y ys ih =>
    rcases List.pairwise_cons.mp hl with ⟨hy, hys⟩
    simp only [insStable]
    split
    · rename_i hxy
      refine List.pairwise_cons.mpr ⟨?_, hl⟩
      intro z hz
      rcases List.mem_cons.mp hz with rfl | hz
      · exact hxy
      · exact htrans _ _ _ hxy (hy z hz)
    · rename_i hxy
      have hyx : le y x = true := by
        rcases htot x y with h | h
        · exact absurd h hxy
        · exact h
      refine List.pairwise_cons.mpr ⟨?_, ih hys⟩
      intro z hz
      rcases (mem_insStable le x z ys).mp hz with rfl | hz
      · exact hyx
      · exact hy z hz

theorem pairwise_sortStable {α : Type} (le : α → α → Bool)
    (htrans : ∀ a b c, le a b = true → le b c = true → le a c = true)
    (htot : ∀ a b, le a b = true ∨ le b a = true)
    (l : List α) :
    (sortStable le l).Pairwise (fun a b => le a b = true) := by
  induction l with
  | nil => simp [sortStable]
  | cons x xs ih => exact pairwise_insStable le htrans htot x _ ih

theorem filter_insStable_ne {α : Type} (score : α → Nat) (s : Nat) (x : α)
    (hx : (score x == s) = false) (l : List α) :
    (insStable (leDescBy score) x l).filter (fun c => score c == s) =
      l.filter (fun c => score c == s) := by
  induction l with
  | nil => simp [insStable, hx]
  | cons y ys ih =>
    simp only [insStable]
    split
    · simp [List.filter_cons, hx]
    · simp [List.filter_cons, ih]

theorem filter_insStable_eq {α : Type} (score : α → Nat) (s : Nat) (x : α)
    (hx : score x = s) (l : List α) :
    (insStable (leDescBy score) x l).filter (fun c => score c == s) =
      x :: l.filter (fun c => score c == s) := by
  induction l with
  | nil => simp [insStable, hx]
  | cons y ys ih =>
    simp only [insStable]
    split
    · simp [List.filter_cons, hx]
    · rename_i hxy
      have hy : ¬ score y ≤ score x := by
        simpa [leDescBy] using hxy
      have hyne : (score y == s) = false := by
        rw [beq_eq_false_iff_ne]
        omega
      simp [List.filter_cons, hyne, ih]

theorem filter_sortStable {α : Type} (score : α → Nat) (s : Nat) (l : List α) :
    (sortStable (leDescBy score) l).filter (fun c => score c == s) =
      l.filter (fun c => score c == s) := by
  induction l with
  | nil => simp [sortStable]
  | cons x xs ih =>
    simp only [sortStable]
    by_cases hx : score x = s
    · rw [filter_insStable_eq score s x hx, ih, List.filter_cons]
      simp [hx]
    · have hx' : (score x == s) = false := by simpa using hx
      rw [filter_insStable_ne score s x hx', ih, List.filter_cons]
      simp [hx']

theorem leDescBy_trans {α : Type} (score : α → Nat) :
    ∀ a b c, leDescBy score a b = true → leDescBy score b c = true →
      leDescBy score a c = true := by
  intro a b c hab hbc
  simp only [leDescBy, decide_eq_true_eq] at *
  omega

theorem leDescBy_total {α : Type} (score : α → Nat) :
    ∀ a b, leDescBy score a b = true ∨ leDescBy score b a = true := by
  intro a b
  simp only [leDescBy, decide_eq_true_eq]
  omega


-- ── Claim C2 ────────────────────────────────────────────────────────────────

/-- C2. Column type inference on the four documented probes. The first three
agree with the claim: an ISO date named `posting_date` infers `date`, a
two-decimal numeric string named `amount` infers `currency`, a UUID named
`id` infers `id` and the column is marked hidden. The fourth contradicts the
claim: `infer("is_active", 1)` yields `number`, not `boolean`, because the
runtime-number test returns before the integer-0/1 boolean-name rule, which
is therefore unreachable for numeric values (contradicting the comment that
rule carries in the source). -/
theorem c2_type_inference_examples :
    RI.inferColumnType "posting_date" (.str "2024-03-01") = .date ∧
    RI.inferColumnType "amount" (.str "125.50") = .currency ∧
    RI.inferColumnType "id" (.str "e4a1b2c3-d4e5-f601-2345-6789abcdef01") = .id ∧
    (RI.introspectColumn "id" (.str "e4a1b2c3-d4e5-f601-2345-6789abcdef01")).hidden = true ∧
    RI.inferColumnType "is_active" (.num 1) = .number := by
  decide

-- ── Claim C9 ────────────────────────────────────────────────────────────────

/-- C9. Reconnect backoff of the live update channel: three consecutive
failures from a fresh connection schedule delays of exactly 1000, 2000 and
4000 milliseconds; each further failure doubles the delay up to the 30000 ms
cap; and a successful open resets the retry counter, so the next failure is
scheduled at the 1000 ms base again. -/
theorem c9_reconnect_backoff :
    Events.failureDelays 0 [.fail, .fail, .fail] = [1000, 2000, 4000] ∧
    (∀ r, Events.backoffDelay (r + 1) = min (2 * Events.backoffDelay r) Events.MAX_BACKOFF) ∧
    (∀ r, Events.backoffDelay r ≤ 30000) ∧
    Events.failureDelays 5 [.fail, .fail] = [30000, 30000] ∧
    (∀ r evs, Events.failureDelays (Events.stepRetry r .openOk) (.fail :: evs) =
      1000 :: Events.failureDelays 1 evs) := by
  refine ⟨by decide, ?_, ?_, by decide, ?_⟩
  · intro r
    unfold Events.backoffDelay Events.BASE_BACKOFF Events.MAX_BACKOFF
    rw [pow_succ]
    generalize (2 : Nat) ^ r = x
    omega
  · intro r
    unfold Events.backoffDelay Events.MAX_BACKOFF
    exact Nat.min_le_right _ _
  · intro r evs
    have h : Events.backoffDelay 0 = 1000 := by decide
    simp [Events.failureDelays, Events.stepRetry, h]

-- ── Claim C4 ────────────────────────────────────────────────────────────────

/-- C4 counterexample. The source checks the override table before
pluralizing, and its pluralizer keeps a trailing `s` unchanged instead of
turning it into `es`. At `request_for_quotation` the source returns the
override `list-rfqs` while the pluralize-first algorithm of the claim returns
`list-request-for-quotations`; at `address` the source returns `list-address`
while the claim rules return `list-addresses`. -/
theorem c4_counterexample :
    UIYaml.inferSearchAction (some "request_for_quotation") = some "list-rfqs" ∧
    claimedInferSearchAction "request_for_quotation" = "list-request-for-quotations" ∧
    some (claimedInferSearchAction "request_for_quotation") ≠
      UIYaml.inferSearchAction (some "request_for_quotation") ∧
    UIYaml.inferSearchAction (some "address") = some "list-address" ∧
    claimedInferSearchAction "address" = "list-addresses" ∧
    some (claimedInferSearchAction "address") ≠ UIYaml.inferSearchAction (some "address") := by
  decide

/-- C4 amended. For a link field declaring a non-empty entity name without an
explicit search action: the explicit override table is consulted first; only
names not in the table are pluralized, with a trailing `s` kept unchanged
(treated as already plural), a trailing `y` turned into `ies`, and `s`
appended otherwise; underscores become hyphens and the result is prefixed
with `list-`. -/
theorem c4_amended (e : String) (he : e ≠ "") :
    (∀ a, lookupR UIYaml.ENTITY_ACTION_OVERRIDES e = some a →
      UIYaml.inferSearchAction (some e) = some a) ∧
    (lookupR UIYaml.ENTITY_ACTION_OVERRIDES e = none →
      UIYaml.inferSearchAction (some e) =
        some ("list-" ++
          (if jsEndsWith "s" (snakeToKebab e) then snakeToKebab e
           else if jsEndsWith "y" (snakeToKebab e) then
             String.mk (snakeToKebab e).data.dropLast ++ "ies"
           else snakeToKebab e ++ "s"))) := by
  constructor
  · intro a ha
    simp [UIYaml.inferSearchAction, he, ha]
  · intro hnone
    simp [UIYaml.inferSearchAction, UIYaml.pluralizeKebab, he, hnone]

/-- C4 amended, witnessed at the regular entity name `item`. -/
theorem c4_amended_witness :
    UIYaml.inferSearchAction (some "item") = some "list-items" := by
  have h := (c4_amended "item" (by decide)).2 (by decide)
  rw [h]
  decide

-- ── Claim C5 ────────────────────────────────────────────────────────────────

/-- C5 counterexample. In the known-pending state (declarative source loading
and yielding no form) the resolver returns `none` and does not consult the
manifest tier (third conjunct: the manifest tier would produce a form once
loading ends). But `none` is exactly the value returned when every source is
absent (second conjunct), so the pending result is not a distinguished
"pending" value. -/
theorem c5_counterexample :
    Proxy.resolveFormSpec none true (some xParamSchema) none "sk" "add-x" = none ∧
    Proxy.resolveFormSpec none false none none "sk" "add-x" = none ∧
    (Proxy.resolveFormSpec none false (some xParamSchema) none "sk" "add-x").isSome = true := by
  decide

/-- C5 amended. Whenever the declarative source is still loading and yields
no form for the requested action, the resolver returns `none` (the same
value as plain absence, not a distinguished marker) without falling through
to the manifest tier, whatever manifest metadata is available. -/
theorem c5_amended (ocfg : Option UIYaml.UIConfig) (ps : Option AutoForm.ParamSchema)
    (cts : Option AutoForm.ChildTableSchema) (skill action : String)
    (h : ocfg.bind (fun cfg => UIYaml.generateFormSpec cfg action) = none) :
    Proxy.resolveFormSpec ocfg true ps cts skill action = none := by
  simp [Proxy.resolveFormSpec, h]

/-- C5 amended, witnessed with a loaded config that has no entry for the
requested action while the manifest schema is present. -/
theorem c5_amended_witness :
    Proxy.resolveFormSpec (some xUIConfig) true (some xParamSchema) none "sk" "list-x" = none :=
  c5_amended (some xUIConfig) (some xParamSchema) none "sk" "list-x" (by decide)

-- ── Claim C1 ────────────────────────────────────────────────────────────────

/-- C1 counterexample. With both sources present the resolver returns the
declarative-derived spec, whose required field keys are `[a]`; with the
declarative descriptor removed it returns the manifest-derived spec, whose
required field keys are `[b]`. The two sets differ, refuting the claim that
the manifest-derived spec has the same set of required field keys. -/
theorem c1_counterexample :
    (Proxy.resolveFormSpec (some xUIConfig) false (some xParamSchema) none "sk" "add-x").map
      Proxy.requiredKeys = some ["a"] ∧
    (Proxy.resolveFormSpec none false (some xParamSchema) none "sk" "add-x").map
      Proxy.requiredKeys = some ["b"] ∧
    (some ["a"] : Option (List String)) ≠ some ["b"] := by
  decide

/-- C1 amended. Precedence holds as claimed: whenever the declarative
converter yields a form, the resolver returns exactly that spec, whatever
manifest metadata is present; with the declarative descriptor absent and not
loading, the resolver returns exactly the manifest-derived spec for the
action. The two specs need not share their required field keys (the sources
are independent). -/
theorem c1_amended :
    (∀ (cfg : UIYaml.UIConfig) (ld : Bool) (ps : Option AutoForm.ParamSchema)
        (cts : Option AutoForm.ChildTableSchema) (skill action : String) (spec : FormSpec),
      UIYaml.generateFormSpec cfg action = some spec →
      Proxy.resolveFormSpec (some cfg) ld ps cts skill action = some spec) ∧
    (∀ (ps : AutoForm.ParamSchema) (cts : Option AutoForm.ChildTableSchema)
        (skill action : String) (aps : AutoForm.ActionParamSchema),
      lookupR ps.actions action = some aps →
      Proxy.resolveFormSpec none false (some ps) cts skill action =
        AutoForm.generateAutoFormSpec skill action aps cts) := by
  constructor
  · intro cfg ld ps cts skill action spec h
    simp [Proxy.resolveFormSpec, h]
  · intro ps cts skill action aps h
    simp [Proxy.resolveFormSpec, h]

/-- C1 amended, witnessed on the concrete config and manifest. -/
theorem c1_amended_witness :
    Proxy.resolveFormSpec (some xUIConfig) false (some xParamSchema) none "sk" "add-x" =
      some xFormSpec ∧
    Proxy.resolveFormSpec none false (some xParamSchema) none "sk" "add-x" =
      AutoForm.generateAutoFormSpec "sk" "add-x" xActionParams none :=
  ⟨c1_amended.1 xUIConfig false (some xParamSchema) none "sk" "add-x" xFormSpec (by decide),
   c1_amended.2 xParamSchema none "sk" "add-x" xActionParams (by decide)⟩

-- ── Claim C6 ────────────────────────────────────────────────────────────────

/-- C6 counterexample. The auto-hidden required `company-id` field is indeed
retained at the head of the first section, but the field spec produced for it
is exactly the plain `paramToField` output and coincides, concrete component
by concrete component, with the spec generated for an identical parameter
under the non-hidden name `branch-id` — only the key differs. The
`FormFieldSpec` carries no flag marking the field for auto-population, so the
claimed marking does not exist. -/
theorem c6_counterexample :
    firstFieldOf (AutoForm.generateAutoFormSpec "sk" "add-customer" companyIdSchema none) =
      some (AutoForm.paramToField companyIdParam "sk") ∧
    firstFieldOf (AutoForm.generateAutoFormSpec "sk" "add-customer" companyIdSchema none) =
      (firstFieldOf (AutoForm.generateAutoFormSpec "sk" "add-customer" branchIdSchema none)).map
        (fun f => { f with key := "company-id" }) := by
  decide

/-- C6 amended. For a form-generating action whose manifest metadata has at
least one regular required parameter, the generated spec retains every
auto-hidden required parameter (such as the gateway-injected `company-id`)
at the front of the first section, converted by the same `paramToField` used
for visible fields and prepended in reverse declaration order; no component
of the resulting field spec flags it as hidden — callers recognize such
fields only by name. -/
theorem c6_amended (skill action : String) (aps : AutoForm.ActionParamSchema)
    (cts : Option AutoForm.ChildTableSchema)
    (hact : (["create", "update", "setup", "action", "status-transition", "utility"] : List String).contains aps.action_type = true)
    (hreg : (aps.required.filter
      (fun p => p.type != "json" && !AutoForm.AUTO_HIDDEN_FIELDS.contains p.name)).isEmpty = false) :
    (AutoForm.generateAutoFormSpec skill action aps cts).isSome = true ∧
    ((AutoForm.generateAutoFormSpec skill action aps cts).bind
        (fun spec => spec.sections.head?)).map (fun s => s.fields) =
      some (((aps.required.filter (fun p => AutoForm.AUTO_HIDDEN_FIELDS.contains p.name)).map
          (fun hp => AutoForm.paramToField hp skill)).reverse ++
        (aps.required.filter
          (fun p => p.type != "json" && !AutoForm.AUTO_HIDDEN_FIELDS.contains p.name)).map
          (fun p => AutoForm.paramToField p skill)) := by
  have hreq : aps.required.isEmpty = false := by
    cases h : aps.required with
    | nil => rw [h] at hreg; simp at hreg
    | cons a l => rfl
  have hall : (aps.required ++ aps.optional).isEmpty = false := by
    cases h : aps.required with
    | nil => rw [h] at hreq; simp at hreq
    | cons a l => rfl
  by_cases hhid : (aps.required.filter
      (fun p => AutoForm.AUTO_HIDDEN_FIELDS.contains p.name)).isEmpty
  · have hnil := List.isEmpty_iff.mp hhid
    simp only [AutoForm.generateAutoFormSpec, hact, hall, hreg, hhid, hnil,
      Bool.not_true, Bool.not_false, Bool.false_and, Bool.false_eq_true, if_false,
      if_true, List.isEmpty_nil, List.singleton_append, List.cons_append,
      List.map_nil, List.reverse_nil,
      List.nil_append, Option.isSome_some, Option.some_bind, List.head?_cons,
      Option.map_some, and_self]
    exact ⟨trivial, rfl⟩
  · have hhid' : (aps.required.filter
        (fun p => AutoForm.AUTO_HIDDEN_FIELDS.contains p.name)).isEmpty = false := by
      revert hhid
      cases (aps.required.filter
        (fun p => AutoForm.AUTO_HIDDEN_FIELDS.contains p.name)).isEmpty <;> simp
    simp only [AutoForm.generateAutoFormSpec, hact, hall, hreg, hhid',
      Bool.not_true, Bool.not_false, Bool.false_eq_true, if_false, if_true,
      List.singleton_append, List.cons_append, List.isEmpty_cons, Bool.true_and,
      Option.isSome_some,
      Option.some_bind, List.head?_cons, Option.map_some, Option.map_some', true_and, and_self]

/-- C6 amended, witnessed on the concrete schema holding `company-id`. -/
theorem c6_amended_witness :
    (AutoForm.generateAutoFormSpec "sk" "add-customer" companyIdSchema none).isSome = true ∧
    ((AutoForm.generateAutoFormSpec "sk" "add-customer" companyIdSchema none).bind
        (fun spec => spec.sections.head?)).map (fun s => s.fields) =
      some (((companyIdSchema.required.filter
          (fun p => AutoForm.AUTO_HIDDEN_FIELDS.contains p.name)).map
          (fun hp => AutoForm.paramToField hp "sk")).reverse ++
        (companyIdSchema.required.filter
          (fun p => p.type != "json" && !AutoForm.AUTO_HIDDEN_FIELDS.contains p.name)).map
          (fun p => AutoForm.paramToField p "sk")) :=
  c6_amended "sk" "add-customer" companyIdSchema none (by decide) (by decide)

-- ── Claim C7 ────────────────────────────────────────────────────────────────

/-- C7. Submission gating of the confirmation card: when `handleSubmit`
produces a parameter set, every unresolved field carried a non-empty (indeed
non-blank) user-entered value, and the produced set is exactly the resolved
fields with overrides applied followed by the user-entered unresolved
values; and whenever some unresolved field is blank after trimming, the
submission is blocked locally (`none`, no network call). -/
theorem c7_submission_gating (comp : Confirm.CompositionResult)
    (overrides : List (String × JValue)) (uv : List (String × String)) :
    (∀ ps, Confirm.handleSubmit comp overrides uv = some ps →
      (∀ f ∈ comp.unresolved_fields, Confirm.unresolvedValueOf uv f ≠ "") ∧
      ps = Confirm.submittedParams comp overrides uv) ∧
    ((∃ f ∈ comp.unresolved_fields, jsTrim (Confirm.unresolvedValueOf uv f) = "") →
      Confirm.handleSubmit comp overrides uv = none) := by
  constructor
  · intro ps hps
    unfold Confirm.handleSubmit at hps
    split at hps
    · cases hps
    · rename_i hcan
      have hcan' : Confirm.canSubmit comp uv = true := by
        revert hcan
        cases Confirm.canSubmit comp uv <;> simp
      refine ⟨?_, (Option.some.inj hps).symm⟩
      intro f hf
      unfold Confirm.canSubmit Confirm.hasUnresolved Confirm.allUnresolvedFilled at hcan'
      rw [Bool.or_eq_true] at hcan'
      rcases hcan' with h1 | h2
      · exfalso
        simp only [Bool.not_eq_eq_eq_not, Bool.not_true, decide_eq_false_iff_not,
          not_lt, Nat.le_zero, List.length_eq_zero] at h1
        rw [h1] at hf
        exact absurd hf (List.not_mem_nil f)
      · have hfil := List.all_eq_true.mp h2 f hf
        intro hemp
        rw [hemp] at hfil
        exact absurd hfil (by decide)
  · rintro ⟨f, hf, hblank⟩
    unfold Confirm.handleSubmit
    split
    · rfl
    · rename_i hcan
      exfalso
      have hcan' : Confirm.canSubmit comp uv = true := by
        revert hcan
        cases Confirm.canSubmit comp uv <;> simp
      unfold Confirm.canSubmit Confirm.hasUnresolved Confirm.allUnresolvedFilled at hcan'
      rw [Bool.or_eq_true] at hcan'
      rcases hcan' with h1 | h2
      · simp only [Bool.not_eq_eq_eq_not, Bool.not_true, decide_eq_false_iff_not,
          not_lt, Nat.le_zero, List.length_eq_zero] at h1
        rw [h1] at hf
        exact absurd hf (List.not_mem_nil f)
      · have hfil := List.all_eq_true.mp h2 f hf
        rw [hblank] at hfil
        exact absurd hfil (by decide)

/-- C7, witnessed on a composition with one unresolved field carrying a
non-blank entry: submission proceeds and the parameter set is exactly the
documented union. -/
theorem c7_witness :
    (∀ f ∈ sampleComposition.unresolved_fields,
      Confirm.unresolvedValueOf sampleUnresolvedValues f ≠ "") ∧
    Confirm.submittedParams sampleComposition sampleOverrides sampleUnresolvedValues =
      Confirm.submittedParams sampleComposition sampleOverrides sampleUnresolvedValues :=
  (c7_submission_gating sampleComposition sampleOverrides sampleUnresolvedValues).1
    (Confirm.submittedParams sampleComposition sampleOverrides sampleUnresolvedValues)
    (by decide)

-- ── Claim C8 ────────────────────────────────────────────────────────────────

/-- C8. The confidence split of the confirmation card partitions the resolved
fields: a field is in the high band or the low band exactly when it is
resolved, no field is in both bands, and a field whose confidence is exactly
0.8 (= 4/5) falls in the high band. -/
theorem c8_confidence_partition (comp : Confirm.CompositionResult) :
    (∀ f, (f ∈ Confirm.highConfidence comp ∨ f ∈ Confirm.lowConfidence comp) ↔
      f ∈ comp.resolved_fields) ∧
    (∀ f, ¬(f ∈ Confirm.highConfidence comp ∧ f ∈ Confirm.lowConfidence comp)) ∧
    (∀ f ∈ comp.resolved_fields, f.confidence = 4 / 5 →
      f ∈ Confirm.highConfidence comp) := by
  refine ⟨?_, ?_, ?_⟩
  · intro f
    simp only [Confirm.highConfidence, Confirm.lowConfidence, List.mem_filter,
      decide_eq_true_eq]
    constructor
    · rintro (⟨hm, _⟩ | ⟨hm, _⟩) <;> exact hm
    · intro hm
      rcases le_or_lt (4 / 5 : Rat) f.confidence with h | h
      · exact Or.inl ⟨hm, h⟩
      · exact Or.inr ⟨hm, h⟩
  · rintro f ⟨h1, h2⟩
    simp only [Confirm.highConfidence, Confirm.lowConfidence, List.mem_filter,
      decide_eq_true_eq] at h1 h2
    exact absurd h2.2 (not_lt.mpr h1.2)
  · intro f hm heq
    simp only [Confirm.highConfidence, List.mem_filter, decide_eq_true_eq]
    exact ⟨hm, by rw [heq]⟩

/-- C8, witnessed at a field sitting exactly on the 0.8 boundary: it belongs
to the high-confidence band. -/
theorem c8_witness : boundaryField ∈ Confirm.highConfidence sampleComposition :=
  (c8_confidence_partition sampleComposition).2.2 boundaryField
    (List.mem_cons_of_mem _ (List.mem_cons_self _ _)) rfl

-- ── Claim C3 ────────────────────────────────────────────────────────────────

/-- C3. Smart column selection: the selected key list has exactly
`min(N, 7)` entries for `N` visible columns; it is the key projection of the
first seven entries of a stable descending sort of the scored visible
columns; that prefix is sorted by descending score; and within every score
class the selected entries form a prefix of the original order, so columns
with equal scores keep their original relative order. -/
theorem c3_smart_columns (columns : List RI.IntrospectedColumn) :
    (RI.selectSmartColumns columns).length =
      min (columns.filter (fun c => !c.hidden)).length 7 ∧
    RI.selectSmartColumns columns =
      ((sortStable (leDescBy Prod.snd) (RI.scoredOf columns)).take 7).map Prod.fst ∧
    ((sortStable (leDescBy Prod.snd) (RI.scoredOf columns)).take 7).Pairwise
      (fun a b => b.2 ≤ a.2) ∧
    ∀ s : Nat,
      ((sortStable (leDescBy Prod.snd) (RI.scoredOf columns)).take 7).filter
          (fun c => c.2 == s) <+:
        (RI.scoredOf columns).filter (fun c => c.2 == s) := by
  have h2 : RI.selectSmartColumns columns =
      ((sortStable (leDescBy Prod.snd) (RI.scoredOf columns)).take 7).map Prod.fst := by
    simp only [RI.selectSmartColumns]
    split
    · rename_i hv
      have hnil : RI.scoredOf columns = [] := by
        unfold RI.scoredOf
        rw [List.isEmpty_iff.mp hv]
        rfl
      rw [hnil]
      rfl
    · rfl
  refine ⟨?_, h2, ?_, ?_⟩
  · rw [h2, List.length_map, List.length_take, length_sortStable]
    have hl : (RI.scoredOf columns).length = (columns.filter (fun c => !c.hidden)).length := by
      unfold RI.scoredOf
      rw [List.length_map]
    rw [hl, Nat.min_comm]
  · have hp := pairwise_sortStable (leDescBy Prod.snd)
      (leDescBy_trans Prod.snd) (leDescBy_total Prod.snd) (RI.scoredOf columns)
    have hp' := List.Pairwise.sublist (List.take_sublist 7 _) hp
    exact hp'.imp (fun h => by simpa [leDescBy] using h)
  · intro s
    have hfil := filter_sortStable (α := String × Nat) Prod.snd s (RI.scoredOf columns)
    refine ⟨((sortStable (leDescBy Prod.snd) (RI.scoredOf columns)).drop 7).filter
      (fun c => c.2 == s), ?_⟩
    rw [← List.filter_append, List.take_append_drop, hfil]

-- ── Claim C10: provenance of every rendered field ───────────────────────────

theorem mem_of_lookupR {α : Type} {r : List (String × α)} {k : String} {v : α}
    (h : lookupR r k = some v) : (k, v) ∈ r := by
  unfold lookupR at h
  cases hf : r.find? (fun p => p.1 = k) with
  | none => rw [hf] at h; cases h
  | some p =>
    rw [hf] at h
    simp only [Option.map_some'] at h
    have hp : p.1 = k := by simpa using List.find?_some hf
    have hm := List.mem_of_find?_eq_some hf
    have hv2 : p.2 = v := Option.some.inj h
    rcases p with ⟨pk, pv⟩
    obtain rfl : pk = k := hp
    obtain rfl : pv = v := hv2
    exact hm

theorem childFieldSpecs_sound (childDef : UIYaml.ChildEntityDef) (skill : String)
    (f : FormFieldSpec) (hf : f ∈ UIYaml.childFieldSpecs childDef skill) :
    ∃ p ∈ childDef.fields, p.2.read_only = false ∧ p.2.hidden = false ∧
      f = UIYaml.fieldDefToFormField p.1 p.2 skill := by
  unfold UIYaml.childFieldSpecs at hf
  rw [List.mem_map] at hf
  obtain ⟨p, hp, rfl⟩ := hf
  rw [List.mem_filter] at hp
  obtain ⟨hmem, hcond⟩ := hp
  simp only [Bool.and_eq_true, Bool.not_eq_true'] at hcond
  exact ⟨p, hmem, hcond.1, hcond.2, rfl⟩

theorem groupedFieldsFor_sound (entity : UIYaml.EntityDef) (g : String)
    (p : String × UIYaml.FieldDef) (hp : p ∈ UIYaml.groupedFieldsFor entity g) :
    p ∈ entity.fields ∧ p.2.read_only = false ∧ p.2.hidden = false := by
  unfold UIYaml.groupedFieldsFor UIYaml.eligibleEntries at hp
  rw [List.mem_filter] at hp
  obtain ⟨hp1, _⟩ := hp
  rw [List.mem_filter] at hp1
  obtain ⟨hmem, hcond⟩ := hp1
  simp only [Bool.and_eq_true, Bool.not_eq_true'] at hcond
  exact ⟨hmem, hcond.1.2, hcond.2⟩

theorem sectionForGroup_sound (entity : UIYaml.EntityDef) (skill : String)
    (childEntities : Option (List (String × UIYaml.ChildEntityDef)))
    (rek gk : String) (gd : UIYaml.FormGroupDef) (sec : FormSectionSpec)
    (h : UIYaml.sectionForGroup entity skill childEntities rek gk gd = some sec)
    (f : FormFieldSpec) (hf : f ∈ sec.fields) :
    UIYaml.FieldFromEntityOrChild entity (childEntities.getD []) skill f := by
  simp only [UIYaml.sectionForGroup] at h
  split at h
  · split at h
    · rename_i mc hfind
      obtain rfl := Option.some.inj h
      obtain ⟨p, hp, hro, hh, rfl⟩ := childFieldSpecs_sound mc.2 skill f hf
      exact ⟨p, Or.inr ⟨mc, List.mem_of_find?_eq_some hfind, hp⟩, hro, hh, rfl⟩
    · cases h
  · split at h
    · rename_i sec' hauto
      obtain rfl := Option.some.inj h
      split at hauto
      · split at hauto
        · split at hauto
          · rename_i mc hfind
            obtain rfl := Option.some.inj hauto
            obtain ⟨p, hp, hro, hh, rfl⟩ := childFieldSpecs_sound mc.2 skill f hf
            exact ⟨p, Or.inr ⟨mc, List.mem_of_find?_eq_some hfind, hp⟩, hro, hh, rfl⟩
          · cases hauto
        · cases hauto
      · cases hauto
    · split at h
      · cases h
      · obtain rfl := Option.some.inj h
        rw [List.mem_map] at hf
        obtain ⟨p, hps, rfl⟩ := hf
        have hp := (mem_sortStable _ p _).mp hps
        obtain ⟨hmem, hro, hh⟩ := groupedFieldsFor_sound entity gk p hp
        exact ⟨p, Or.inl hmem, hro, hh, rfl⟩

theorem buildFormSections_sound (entity : UIYaml.EntityDef) (skill : String)
    (childEntities : Option (List (String × UIYaml.ChildEntityDef)))
    (entityKey : Option String) (sec : FormSectionSpec)
    (hs : sec ∈ UIYaml.buildFormSections entity skill childEntities entityKey)
    (f : FormFieldSpec) (hf : f ∈ sec.fields) :
    UIYaml.FieldFromEntityOrChild entity (childEntities.getD []) skill f := by
  simp only [UIYaml.buildFormSections] at hs
  rw [List.mem_append] at hs
  rcases hs with hs | hs
  · rw [List.mem_filterMap] at hs
    obtain ⟨p, _, hsec⟩ := hs
    exact sectionForGroup_sound entity skill childEntities _ p.1 p.2 sec hsec f hf
  · split at hs
    · exact absurd hs (List.not_mem_nil sec)
    · rw [List.mem_singleton] at hs
      subst hs
      rw [List.mem_map] at hf
      obtain ⟨p, hps, rfl⟩ := hf
      have hp := (mem_sortStable _ p _).mp hps
      obtain ⟨hmem, hro, hh⟩ := groupedFieldsFor_sound entity "_default" p hp
      exact ⟨p, Or.inl hmem, hro, hh, rfl⟩

theorem sectionForFormViewGroup_sound (group : UIYaml.FormViewGroup)
    (entity : UIYaml.EntityDef)
    (childEntities : List (String × UIYaml.ChildEntityDef)) (skill : String)
    (sec : FormSectionSpec)
    (h : UIYaml.sectionForFormViewGroup group entity childEntities skill = some sec)
    (f : FormFieldSpec) (hf : f ∈ sec.fields) :
    UIYaml.FieldFromEntityOrChild entity childEntities skill f := by
  simp only [UIYaml.sectionForFormViewGroup] at h
  split at h
  · split at h
    · rename_i childDef hlk
      obtain rfl := Option.some.inj h
      obtain ⟨p, hp, hro, hh, rfl⟩ := childFieldSpecs_sound childDef skill f hf
      exact ⟨p, Or.inr ⟨_, mem_of_lookupR hlk, hp⟩, hro, hh, rfl⟩
    · cases h
  · split at h
    · split at h
      · cases h
      · obtain rfl := Option.some.inj h
        rw [List.mem_filterMap] at hf
        obtain ⟨fieldKey, _, hconv⟩ := hf
        split at hconv
        · rename_i fieldDef hlk
          split at hconv
          · cases hconv
          · rename_i hcond
            obtain rfl := Option.some.inj hconv
            have hmem := mem_of_lookupR hlk
            have hro : fieldDef.read_only = false := by
              revert hcond
              cases fieldDef.read_only <;> cases fieldDef.hidden <;> simp
            have hh : fieldDef.hidden = false := by
              revert hcond
              cases fieldDef.read_only <;> cases fieldDef.hidden <;> simp
            exact ⟨(fieldKey, fieldDef), Or.inl hmem, hro, hh, rfl⟩
        · cases hconv
    · cases h

theorem buildFormSectionsFromFormView_sound (fv : UIYaml.FormViewDef)
    (entity : UIYaml.EntityDef)
    (childEntities : List (String × UIYaml.ChildEntityDef)) (skill : String)
    (sec : FormSectionSpec)
    (hs : sec ∈ UIYaml.buildFormSectionsFromFormView fv entity childEntities skill)
    (f : FormFieldSpec) (hf : f ∈ sec.fields) :
    UIYaml.FieldFromEntityOrChild entity childEntities skill f := by
  unfold UIYaml.buildFormSectionsFromFormView at hs
  rw [List.mem_filterMap] at hs
  obtain ⟨g, _, hsec⟩ := hs
  exact sectionForFormViewGroup_sound g entity childEntities skill sec hsec f hf

theorem fieldFrom_fieldDefsOf (cfg : UIYaml.UIConfig) (entityName : String)
    (entity : UIYaml.EntityDef) (hent : (entityName, entity) ∈ cfg.entities)
    (f : FormFieldSpec)
    (h : UIYaml.FieldFromEntityOrChild entity (cfg.child_entities.getD []) cfg.skill f) :
    ∃ p ∈ UIYaml.fieldDefsOf cfg, p.2.read_only = false ∧ p.2.hidden = false ∧
      f = UIYaml.fieldDefToFormField p.1 p.2 cfg.skill := by
  obtain ⟨p, hloc, hro, hh, rfl⟩ := h
  refine ⟨p, ?_, hro, hh, rfl⟩
  unfold UIYaml.fieldDefsOf
  rw [List.mem_append]
  rcases hloc with hp | ⟨ce, hce, hp⟩
  · left
    rw [List.mem_flatten]
    exact ⟨entity.fields, List.mem_map_of_mem _ hent, hp⟩
  · right
    rw [List.mem_flatten]
    exact ⟨ce.2.fields, List.mem_map_of_mem _ hce, hp⟩

/-- C10. No read-only or hidden field definition survives conversion: every
field of every section of a FormSpec generated from a declarative UI config
comes from a field definition declared in the config (in an entity or a
child entity) whose `read_only` and `hidden` flags are both false, converted
by `fieldDefToFormField`. This covers inferred flat sections, explicit
form-view groups, and repeatable child-table sections alike. -/
theorem c10_no_readonly_hidden (cfg : UIYaml.UIConfig) (action : String) (fs : FormSpec)
    (h : UIYaml.generateFormSpec cfg action = some fs) :
    ∀ sec ∈ fs.sections, ∀ f ∈ sec.fields,
      ∃ p ∈ UIYaml.fieldDefsOf cfg, p.2.read_only = false ∧ p.2.hidden = false ∧
        f = UIYaml.fieldDefToFormField p.1 p.2 cfg.skill := by
  intro sec hsec f hf
  simp only [UIYaml.generateFormSpec] at h
  split at h
  · cases h
  · rename_i actionEntry hae
    split at h
    · cases h
    · split at h
      · cases h
      · rename_i entityName hactionEntity
        split at h
        · cases h
        · split at h
          · cases h
          · rename_i entity hent
            split at h
            · cases h
            · obtain rfl := Option.some.inj h
              dsimp only at hsec
              split at hsec
              · exact fieldFrom_fieldDefsOf cfg entityName entity (mem_of_lookupR hent) f
                  (buildFormSectionsFromFormView_sound _ entity _ cfg.skill sec hsec f hf)
              · exact fieldFrom_fieldDefsOf cfg entityName entity (mem_of_lookupR hent) f
                  (buildFormSections_sound entity cfg.skill cfg.child_entities
                    (some entityName) sec hsec f hf)

/-- C10, witnessed on the concrete config: the one rendered field of the
generated spec originates in the visible, writable declared field `a`. -/
theorem c10_no_readonly_hidden_witness :
    ∃ p ∈ UIYaml.fieldDefsOf xUIConfig, p.2.read_only = false ∧ p.2.hidden = false ∧
      UIYaml.fieldDefToFormField "a" xFieldDef "sk" =
        UIYaml.fieldDefToFormField p.1 p.2 xUIConfig.skill :=
  c10_no_readonly_hidden xUIConfig "add-x" xFormSpec (by decide) xSection (by decide)
    (UIYaml.fieldDefToFormField "a" xFieldDef "sk") (by decide)
